import Mathlib

/-!
Verification of the batch prompt-execution engine of `streamlit_app.py`.

The development shallowly embeds the parts of the program the claims are
about: placeholder extraction and validation (lines 134-151), prompt
rendering and row processing (`_process_row`, lines 205-214), the memoizing
wrapper around the external text-generation call (`call_chat`, lines
187-203), the concurrent batch loop with cooperative cancellation (lines
221-254), the retry-errors block (lines 256-261), the workbook export block
(lines 263-274) and the worker-count computation (line 230).

Cell values are modelled after Python stringification: a cell is either
missing (`pd.isna`) or carries the string `str(v)` produces for it.
-/

namespace AppIaExcel

/-! ## Placeholder extraction: `re.findall(r"#([^#]+)#", prompt_tpl)` (line 136)

`scanPH` walks the template character by character.  `none` means we are
outside a candidate match; `some acc` means an opening `#` has been read and
`acc` holds the (reversed) characters seen since.  A closing `#` directly
after an opening one cannot end a match (the regex requires one or more
non-`#` characters), so the second `#` is treated as a fresh opener —
exactly the leftmost, non-overlapping semantics of `re.findall`. -/
def scanPH : Option (List Char) → List Char → List String
  | _, [] => []
  | none, c :: rest =>
      if c = '#' then scanPH (some []) rest else scanPH none rest
  | some acc, c :: rest =>
      if c = '#' then
        if acc.isEmpty then scanPH (some []) rest
        else String.mk acc.reverse :: scanPH none rest
      else scanPH (some (c :: acc)) rest

/-- Placeholders of a template, in order of occurrence (line 136). -/
def findPlaceholders (tpl : String) : List String :=
  scanPH none tpl.data

/-- The literal token substituted for a placeholder name: `f"#{c}#"`. -/
def phToken (c : String) : String :=
  "#" ++ c ++ "#"

/-! ## Python `str.replace` (literal, non-overlapping, left to right)

Lean's own `String.replace` carries proof arguments that block kernel
evaluation, so the same operation is defined here directly on character
lists.  The patterns substituted by the program are placeholder tokens
`#c#`, which are never empty. -/
def listReplaceGo (pat rep : List Char) : Nat → List Char → List Char
  | _, [] => []
  | 0, s => s
  | fuel + 1, c :: rest =>
      if pat.isPrefixOf (c :: rest) then
        rep ++ listReplaceGo pat rep fuel (rest.drop (pat.length - 1))
      else
        c :: listReplaceGo pat rep fuel rest

/-- Replacement of every non-overlapping occurrence of `pat`, scanning left to
right.  Each step consumes at least one character, so `s.length` steps of fuel
always suffice; the fuel only makes the recursion structural. -/
def listReplace (pat rep s : List Char) : List Char :=
  listReplaceGo pat rep s.length s

/-- Python `s.replace(pat, rep)` for a nonempty pattern. -/
def pyReplace (s pat rep : String) : String :=
  String.mk (listReplace pat.data rep.data s.data)

/-! ## Row values and rendering (`_process_row`, lines 205-209) -/

/-- A cell value: `na` models a value for which `pd.isna(v)` holds; `str s`
models any other value, carried as its Python stringification `str(v)`. -/
inductive Value where
  | na : Value
  | str : String → Value
deriving DecidableEq

/-- Python `"" if pd.isna(v) else str(v)` (line 206). -/
def stringify : Value → String
  | Value.na => ""
  | Value.str s => s

/-- A row of the active sheet: association list column name → value. -/
abbrev Row := List (String × Value)

/-- The dict comprehension of line 206: `{c: ("" if pd.isna(v) else str(v)) ...}`. -/
def rowData (row : Row) : List (String × String) :=
  row.map fun p => (p.1, stringify p.2)

/-- Python `d.get(c, dflt)` on an association list. -/
def dictGet (d : List (String × String)) (c dflt : String) : String :=
  match d.find? (fun p => p.1 = c) with
  | some p => p.2
  | none => dflt

/-- The rendering loop of lines 207-209: starting from the template, replace
each placeholder token in turn by `data.get(c, "")`, via Python
`str.replace` (literal substring substitution of every occurrence). -/
def renderTpl (tpl : String) (phs : List String) (row : Row) : String :=
  phs.foldl (fun s c => pyReplace s (phToken c) (dictGet (rowData row) c "")) tpl

/-- Row lookup used by the spec-side rendering: the row's value stringified,
empty for a missing column. -/
def valueOf (row : Row) (c : String) : String :=
  match row.find? (fun p => p.1 = c) with
  | some p => stringify p.2
  | none => ""

/-- Rendering as the specification words it: replace each extracted
placeholder token with the row's value stringified (empty for null/missing)
by literal substring substitution. -/
def renderSpec (tpl : String) (row : Row) : String :=
  (findPlaceholders tpl).foldl (fun s c => pyReplace s (phToken c) (valueOf row c)) tpl

/-! ## Result status and the external call (`call_chat`, lines 187-203)

The external service is abstracted as an oracle giving the outcome of the
`n`-th invocation performed through `call_chat`: `.ok s` is the (already
stripped) response text, `.error e` is the string form of the exception
raised. -/

/-- Python `s.startswith(p)`. -/
def pyStartsWith (s p : String) : Bool :=
  p.data.isPrefixOf s.data

/-- The error-message marker of line 201: `f"Erreur API : {e}"` starts with it. -/
def errApi : String := "Erreur API"

inductive RStatus where
  | success : RStatus
  | error : RStatus
deriving DecidableEq

/-- Line 213: `status = "error" if resp.startswith("Erreur API") else "success"`. -/
def statusOf (resp : String) : RStatus :=
  if pyStartsWith resp errApi then RStatus.error else RStatus.success

/-- Outcome of the `n`-th external invocation of a run. -/
abbrev Oracle := Nat → Except String String

/-- The text `call_chat` produces from one invocation's outcome: the response
itself on success, `f"Erreur API : {e}"` when the call raised `e` (lines
199-201). -/
def outcomeText : Except String String → String
  | Except.ok s => s
  | Except.error e => errApi ++ " : " ++ e

/-- State threaded through `call_chat`: the global prompt cache (line 58,
newest entry first) and the number of external invocations made so far. -/
structure ChatSt where
  cache : List (String × String)
  ncalls : Nat
deriving DecidableEq

/-- Python `prompt_cache[prompt]` lookup (`prompt in prompt_cache` is its
`isSome`). -/
def cacheLookup (cache : List (String × String)) (p : String) : Option String :=
  match cache.find? (fun e => e.1 = p) with
  | some e => some e.2
  | none => none

/-- Model of `call_chat(prompt)` (lines 187-203): return the cached text if the prompt
is present; otherwise invoke the service once (the `try`/`except` turning a
failure into the in-band error message) and store the text under the prompt. -/
def callChat (o : Oracle) (st : ChatSt) (prompt : String) : String × ChatSt :=
  match cacheLookup st.cache prompt with
  | some t => (t, st)
  | none =>
      let t := outcomeText (o st.ncalls)
      (t, ⟨(prompt, t) :: st.cache, st.ncalls + 1⟩)

/-- A sequence of further `call_chat` invocations (each with its own oracle
view and prompt), used to speak about "every subsequent call". -/
def runCalls (calls : List (Oracle × String)) (st : ChatSt) : ChatSt :=
  calls.foldl (fun st c => (callChat c.1 st c.2).2) st

/-! ## Row processing and the batch loop (lines 205-214 and 221-254) -/

/-- The tuple `_process_row` returns (line 214), minus the wall-clock
duration, which is not modelled. -/
structure RowResult where
  idx : Nat
  resp : String
  status : RStatus
  prompt : String
deriving DecidableEq

/-- Model of `_process_row(i, row)` (lines 205-214): render the template for the row,
call `call_chat`, classify the response by its text. -/
def processRow (o : Oracle) (tpl : String) (phs : List String) (st : ChatSt)
    (i : Nat) (row : Row) : RowResult × ChatSt :=
  let filled := renderTpl tpl phs row
  let (resp, st') := callChat o st filled
  (⟨i, resp, statusOf resp, filled⟩, st')

/-- State mutated by the consumer side of the batch loop: the chat state, the
output-column writes (`df.at[i, output_col] = resp`, newest first), the log
(`st.session_state.log_entries`, in append order) and the retry ledger
(`st.session_state.error_rows`, in append order). -/
structure BatchSt where
  chat : ChatSt
  cells : List (Nat × String)
  log : List RowResult
  errorRows : List Nat
deriving DecidableEq

def emptyBatch : BatchSt := ⟨⟨[], 0⟩, [], [], []⟩

/-- The batch loop of lines 231-250 in the run where the stop flag is never
set: each job is processed, its response written to the output column, its
entry appended to the log, and its index appended to `error_rows` when the
status is `error`.  The sequential fold is one completion order of the
thread pool; the cache state is threaded through it. -/
def runJobs (o : Oracle) (tpl : String) (phs : List String) :
    List (Nat × Row) → BatchSt → BatchSt
  | [], st => st
  | job :: rest, st =>
      let pr := processRow o tpl phs st.chat job.1 job.2
      runJobs o tpl phs rest
        { chat := pr.2
          cells := (pr.1.idx, pr.1.resp) :: st.cells
          log := st.log ++ [pr.1]
          errorRows :=
            if pr.1.status = RStatus.error then st.errorRows ++ [pr.1.idx] else st.errorRows }

/-- The value of `df.at[i, output_col]` after the run: the most recent write
to row `i`, `none` if the cell was never written (it then still holds the
empty string of line 178). -/
def cellValue (st : BatchSt) (i : Nat) : Option String :=
  (st.cells.find? (fun p => p.1 = i)).map (fun p => p.2)

/-- Index/rendered-prompt pairs of a job list. -/
def jobPrompts (tpl : String) (jobs : List (Nat × Row)) : List (Nat × String) :=
  jobs.map (fun j => (j.1, renderTpl tpl (findPlaceholders tpl) j.2))

/-! ## The batch loop under cancellation (lines 231-252)

All futures are submitted up front (line 232).  When the consumer observes
the stop flag it `break`s, but leaving the `with ThreadPoolExecutor` block
runs `shutdown(wait=True)` with `cancel_futures=False`: every queued work
item is still executed to completion.  So the set of jobs whose processing
(and external call, cache permitting) happens is the whole submission,
independent of the flag; only the write-back/log side stops.

`order` is the completion order in which `as_completed` yields the futures
(a permutation of the submitted row indices); `flag k` tells whether
`st.session_state.stop_flag` reads true at the top of the `k`-th loop
iteration. -/

/-- The rows whose results the consumer records: the prefix of the completion
order up to (excluding) the first iteration at which the flag is observed. -/
def consumeFrom (flag : Nat → Bool) : Nat → List Nat → List Nat
  | _, [] => []
  | k, i :: rest => if flag k then [] else i :: consumeFrom flag (k + 1) rest

def recordedRows (flag : Nat → Bool) (order : List Nat) : List Nat :=
  consumeFrom flag 0 order

/-- Every submitted job runs to completion (its `_process_row` executes),
whatever the flag does. -/
def executedRows (order : List Nat) : List Nat := order

/-- Output cell of row `i` after a cancelled or completed run: the result
text `res i` if the consumer recorded row `i`, otherwise still empty. -/
def cellAfterCancel (flag : Nat → Bool) (order : List Nat) (res : Nat → String)
    (i : Nat) : Option String :=
  if i ∈ recordedRows flag order then some (res i) else none

/-! ## Interleaved executions of `call_chat` for one shared prompt (C1)

Two threads run `call_chat` on the same rendered prompt.  Each thread
executes three atomic program points of lines 188-202: (0) the membership
test `prompt in prompt_cache` (returning the entry on a hit), (1) the
external invocation binding `text`, (2) the store
`prompt_cache[prompt] = text` and the return.  There is no lock around the
check-then-act sequence.  `f n` is the text produced by the `n`-th external
invocation. -/

structure CcSt where
  cache : Option String
  ncalls : Nat
  pc1 : Nat
  txt1 : String
  res1 : Option String
  pc2 : Nat
  txt2 : String
  res2 : Option String
deriving DecidableEq

def ccInit : CcSt := ⟨none, 0, 0, "", none, 0, "", none⟩

def ccStep1 (f : Nat → String) (s : CcSt) : CcSt :=
  match s.pc1 with
  | 0 =>
      match s.cache with
      | some v => { s with res1 := some v, pc1 := 3 }
      | none => { s with pc1 := 1 }
  | 1 => { s with txt1 := f s.ncalls, ncalls := s.ncalls + 1, pc1 := 2 }
  | 2 => { s with cache := some s.txt1, res1 := some s.txt1, pc1 := 3 }
  | _ => s

def ccStep2 (f : Nat → String) (s : CcSt) : CcSt :=
  match s.pc2 with
  | 0 =>
      match s.cache with
      | some v => { s with res2 := some v, pc2 := 3 }
      | none => { s with pc2 := 1 }
  | 1 => { s with txt2 := f s.ncalls, ncalls := s.ncalls + 1, pc2 := 2 }
  | 2 => { s with cache := some s.txt2, res2 := some s.txt2, pc2 := 3 }
  | _ => s

/-- One interleaved execution: the schedule says which thread takes its next
atomic step. -/
def ccRun (f : Nat → String) (sched : List Bool) : CcSt :=
  sched.foldl (fun s tid => if tid then ccStep1 f s else ccStep2 f s) ccInit

/-! ## One top-to-bottom script run (validation, dispatch, retry block)

`scriptRun` models the statement order of the script for the parts the
claims depend on: placeholder validation (lines 134-142, where `st.stop()`
aborts the whole run before any job exists), the choice of rows to process
(lines 216-219), the batch block (lines 221-254, entered only when
`to_process` is nonempty, resetting `error_rows` and the log first), and the
retry-errors block (lines 256-261), which runs *after* the batch loop: it
copies `error_rows` into the local `to_process` and clears the ledger, and
no further execution follows it in the script. -/

/-- Line 139: `f"Colonnes invalides : {', '.join(invalid)}"`. -/
def invalidMessage (inv : List String) : String :=
  "Colonnes invalides : " ++ String.intercalate ", " inv

structure ScriptResult where
  /-- Holds `some inv` when validation called `st.error`/`st.stop()` for the
  invalid placeholders `inv`. -/
  blockedInvalid : Option (List String)
  /-- Whether the non-fatal `st.warning("Aucun placeholder détecté.")` fired. -/
  warnedNoPh : Bool
  /-- Indices dispatched to the batch loop during this run. -/
  executed : List Nat
  /-- State left by the batch block. -/
  batch : BatchSt
  /-- Value of `st.session_state.error_rows` at the end of the run. -/
  errorRowsAfter : List Nat
  /-- The local `to_process` the retry block assigned, if it ran. -/
  retryToProcess : Option (List Nat)
deriving DecidableEq

def scriptRun (o : Oracle) (tpl : String) (cols : List String)
    (rows : List (Nat × Row)) (errorRows0 : List Nat)
    (runFull runTest retryClick : Bool) : ScriptResult :=
  let phs := findPlaceholders tpl
  let inv := phs.filter (fun c => !(cols.contains c))
  if inv.isEmpty then
    let jobs := if runFull then rows else if runTest then rows.take 5 else []
    let batch :=
      if jobs.isEmpty then { emptyBatch with errorRows := errorRows0 }
      else runJobs o tpl phs jobs emptyBatch
    let doRetry := !batch.errorRows.isEmpty && retryClick
    { blockedInvalid := none
      warnedNoPh := phs.isEmpty
      executed := jobs.map (fun j => j.1)
      batch := batch
      errorRowsAfter := if doRetry then [] else batch.errorRows
      retryToProcess := if doRetry then some batch.errorRows else none }
  else
    { blockedInvalid := some inv
      warnedNoPh := false
      executed := []
      batch := emptyBatch
      errorRowsAfter := errorRows0
      retryToProcess := none }

/-! ## Workbook export (lines 263-274)

A workbook is its ordered sheet list.  The export block removes the sheet
named like the active one (`wb.remove(wb[sheet])`) and creates the
replacement at index 0 (`wb.create_sheet(sheet, 0)`), filling it from the
working dataframe; no other sheet is touched. -/

abbrev Sheet := List (List String)

def replaceSheet (wb : List (String × Sheet)) (name : String) (tbl : Sheet) :
    List (String × Sheet) :=
  let wb1 :=
    if wb.any (fun s => s.1 == name) then wb.eraseP (fun s => s.1 == name) else wb
  (name, tbl) :: wb1

/-! ## Worker-pool size (line 230)

`workers = max(1, int(1 / st.session_state.rate_limit)) if
st.session_state.rate_limit > 0 else 1`.  The slider value is modelled as a
rational; Python `int()` truncates toward zero, i.e. `Int.tdiv` of the
numerator by the denominator. -/

/-- Python `int(q)` for a rational `q`: truncation toward zero. -/
def pyInt (q : ℚ) : ℤ :=
  q.num.tdiv q.den

def workersOf (pause : ℚ) : ℕ :=
  if 0 < pause then max 1 (pyInt (1 / pause)).toNat else 1

/-- The per-job results the batch loop produces for a list of
(index, rendered prompt) jobs whose prompts all miss the cache: the job at
position `k` consumes the `n + k`-th external invocation. -/
def expectedResults (o : Oracle) : Nat → List (Nat × String) → List RowResult
  | _, [] => []
  | n, (i, p) :: rest =>
      ⟨i, outcomeText (o n), statusOf (outcomeText (o n)), p⟩ :: expectedResults o (n + 1) rest

/-! ## Sanity evaluations of the embedding -/

example : findPlaceholders "Hello #Name# from #City#" = ["Name", "City"] := by decide
example : findPlaceholders "a##b#c#d#" = ["b", "d"] := by decide
example : findPlaceholders "no placeholder" = [] := by decide
example : pyReplace "Hello #Name#!" "#Name#" "Ann" = "Hello Ann!" := by decide
example : pyReplace "#A##A#" "#A#" "x" = "xx" := by decide
example : pyReplace "abc" "#Z#" "x" = "abc" := by decide
example :
    renderTpl "Hello #Name# from #City#" (findPlaceholders "Hello #Name# from #City#")
      [("Name", Value.str "Ann"), ("City", Value.str "Lyon")] = "Hello Ann from Lyon" := by
  decide
example :
    renderTpl "Hello #Name# from #City#" (findPlaceholders "Hello #Name# from #City#")
      [("Name", Value.str "Bo"), ("City", Value.str "")] = "Hello Bo from " := by
  decide
example : workersOf 1 = 1 := by norm_num [workersOf, pyInt]
example : workersOf (1 / 2) = 2 := by norm_num [workersOf, pyInt]; decide
example : workersOf 2 = 1 := by norm_num [workersOf, pyInt]; decide
example : workersOf 0 = 1 := by norm_num [workersOf]

/-! ## Helper lemmas -/

theorem pyInt_eq_floor (q : ℚ) (h : 0 < q) : pyInt q = ⌊q⌋ := by
  rw [Rat.floor_def, pyInt]
  exact Int.tdiv_eq_ediv (le_of_lt (Rat.num_pos.mpr h)) (Int.ofNat_nonneg _)

theorem filter_eraseP {α : Type} (pb : α → Bool) (l : List α) :
    (l.eraseP pb).filter (fun a => !(pb a)) = l.filter (fun a => !(pb a)) := by
  induction l with
  | nil => rfl
  | cons a l ih =>
      cases hpb : pb a
      · simp [List.eraseP_cons, List.filter_cons, hpb, ih]
      · simp [List.eraseP_cons, List.filter_cons, hpb]

/-! ## C1: concurrent duplicate suppression in the prompt cache -/

/-- C1, counterexample.  Two overlapping callers of `call_chat` with the same
rendered prompt: both run the membership test of line 188 before either has
stored, so the external service is invoked twice (`ncalls = 2`) and, the two
invocations answering differently, the callers receive different results —
against the claim that the service is invoked at most once and both callers
share the single invocation's result. -/
theorem c1_counterexample :
    let f : Nat → String := fun n => if n = 0 then "a" else "b"
    let s := ccRun f [true, false, true, false, true, false]
    s.ncalls = 2 ∧ s.res1 = some "a" ∧ s.res2 = some "b" ∧ s.res1 ≠ s.res2 := by
  decide

/-- C1 (amended): the cache deduplicates only non-overlapping calls.  When one
caller of `call_chat` runs to completion before the other performs its
membership test, the service is invoked exactly once and both callers return
that single invocation's text; overlapping callers that both miss may each
invoke the service once and may receive different results (see the
counterexample). -/
theorem c1_sequential_callers_share (f : Nat → String) :
    (ccRun f [true, true, true, false]).ncalls = 1
    ∧ (ccRun f [true, true, true, false]).res1 = some (f 0)
    ∧ (ccRun f [true, true, true, false]).res2 = some (f 0) :=
  ⟨rfl, rfl, rfl⟩

/-! ## C4: sheet replacement on export -/

/-- C4, counterexample.  `wb.create_sheet(sheet, 0)` (line 269) inserts the
replaced sheet at position 0 whatever its original position: with sheets
`["A", "T"]` and target `"T"`, the exported order is `["T", "A"]`, so the
target sheet is reordered as a side effect of the replacement, against the
claim that no sheet is reordered and the sheets keep their original relative
order. -/
theorem c4_counterexample :
    (replaceSheet [("A", [["1"]]), ("T", [["2"]])] "T" [["9"]]).map (fun s => s.1) = ["T", "A"]
    ∧ [("A", ([["1"]] : Sheet)), ("T", [["2"]])].map (fun s => s.1) = ["A", "T"]
    ∧ (["T", "A"] : List String) ≠ ["A", "T"] := by
  decide

/-- C4 (amended): after `replaceSheet`, every sheet other than the target is
reproduced unchanged and those sheets keep their original relative order
among themselves; the replacement sheet, however, is inserted at the first
position, so the target is moved to the front whenever it was not already
there. -/
theorem c4_other_sheets_preserved (wb : List (String × Sheet)) (name : String) (tbl : Sheet) :
    (replaceSheet wb name tbl).filter (fun s => !(s.1 == name)) =
        wb.filter (fun s => !(s.1 == name))
    ∧ (replaceSheet wb name tbl).head? = some (name, tbl) := by
  constructor
  · rw [replaceSheet]
    simp only [List.filter_cons]
    have hname : ((name, tbl).1 == name) = true := by simp
    rw [hname]
    simp only [Bool.not_true, if_neg (by simp : ¬((false : Bool) = true))]
    split
    · exact filter_eraseP _ wb
    · rfl
  · rfl

/-! ## C8: worker-pool size derived from the pause duration -/

/-- C8: the parallel worker count is a function of the configured pause alone
(line 230): a positive pause `p` yields `max 1 ⌊1/p⌋` workers (Python `int`
truncation coinciding with the floor for the positive `1/p`), a zero pause
yields 1 worker, and there is no separate pacing knob — at least one worker
is always used. -/
theorem c8_workers_from_pause (p : ℚ) :
    (0 < p → workersOf p = max 1 (Int.toNat ⌊1 / p⌋))
    ∧ (p = 0 → workersOf p = 1)
    ∧ 1 ≤ workersOf p := by
  refine ⟨?_, ?_, ?_⟩
  · intro h
    rw [workersOf, if_pos h, pyInt_eq_floor _ (by positivity)]
  · intro h
    rw [workersOf, h]
    norm_num
  · rw [workersOf]
    split
    · exact le_max_left _ _
    · exact le_refl 1

/-- C8, witness: a half-second pause yields `max 1 ⌊2⌋ = 2` workers, a zero
pause yields 1. -/
theorem c8_witness :
    workersOf (1 / 2) = max 1 (Int.toNat ⌊(1 : ℚ) / (1 / 2)⌋) ∧ workersOf 0 = 1 :=
  ⟨(c8_workers_from_pause (1 / 2)).1 (by norm_num), (c8_workers_from_pause 0).2.1 rfl⟩

/-! ## C2: cooperative cancellation -/

theorem consumeFrom_length_le (flag : Nat → Bool) :
    ∀ (l : List Nat) (j k : Nat), j ≤ k → flag k = true →
      (consumeFrom flag j l).length ≤ k - j := by
  intro l
  induction l with
  | nil => intro j k _ _; simp [consumeFrom]
  | cons i rest ih =>
      intro j k hjk hk
      rw [consumeFrom]
      by_cases hfj : flag j = true
      · rw [if_pos hfj]
        simp
      · rw [if_neg hfj]
        have hne : j ≠ k := by
          intro e
          rw [e, hk] at hfj
          exact hfj rfl
        have hjk' : j + 1 ≤ k := Nat.lt_of_le_of_ne hjk hne
        have hrec := ih (j + 1) k hjk' hk
        simp only [List.length_cons]
        omega

theorem consumeFrom_isTake (flag : Nat → Bool) :
    ∀ (l : List Nat) (j : Nat), ∃ n, consumeFrom flag j l = l.take n := by
  intro l
  induction l with
  | nil => intro j; exact ⟨0, rfl⟩
  | cons i rest ih =>
      intro j
      rw [consumeFrom]
      cases hfj : flag j
      · obtain ⟨n, hn⟩ := ih (j + 1)
        exact ⟨n + 1, by simp [hn]⟩
      · exact ⟨0, by simp⟩

/-- C2, counterexample.  Two jobs, both in flight; the stop flag is observed
at the second loop iteration (after the first result arrives).  Job 1 runs to
completion — every submitted future is executed, since `shutdown(wait=True)`
does not cancel queued work — yet its result is not recorded: its index is
absent from the recorded rows (so from the log) and its output cell stays
empty, against the claim that in-flight jobs' results are still recorded; and
its `_process_row` (with the external dispatch it performs) runs even though
the job had not started when the flag was set, against the claim that no such
job is dispatched. -/
theorem c2_counterexample :
    let flag : Nat → Bool := fun k => decide (1 ≤ k)
    1 ∈ executedRows [0, 1]
    ∧ recordedRows flag [0, 1] = [0]
    ∧ 1 ∉ recordedRows flag [0, 1]
    ∧ cellAfterCancel flag [0, 1] (fun _ => "r") 1 = none := by
  decide

/-- C2 (amended): once the consumer observes the stop flag it records nothing
further — the recorded rows are a prefix of the completion order cut before
any iteration at which the flag reads true, and every unrecorded row's output
cell stays empty and its index is absent from the log; however, every
submitted job still executes to completion (dispatch is not prevented), and
results completed after the flag is observed are discarded rather than
recorded. -/
theorem c2_cancellation_behavior (flag : Nat → Bool) (order : List Nat)
    (res : Nat → String) :
    executedRows order = order
    ∧ (∀ k, flag k = true → (recordedRows flag order).length ≤ k)
    ∧ (∀ i, i ∉ recordedRows flag order → cellAfterCancel flag order res i = none)
    ∧ (∃ n, recordedRows flag order = order.take n) := by
  refine ⟨rfl, ?_, ?_, consumeFrom_isTake flag order 0⟩
  · intro k hk
    simpa using consumeFrom_length_le flag order 0 k (Nat.zero_le k) hk
  · intro i hi
    rw [cellAfterCancel, if_neg hi]

/-- C2, witness: the amended theorem at the counterexample's schedule. -/
theorem c2_witness :
    executedRows [0, 1] = [0, 1]
    ∧ (recordedRows (fun k => decide (1 ≤ k)) [0, 1]).length ≤ 1
    ∧ cellAfterCancel (fun k => decide (1 ≤ k)) [0, 1] (fun _ => "r") 1 = none
    ∧ (∃ n, recordedRows (fun k => decide (1 ≤ k)) [0, 1] = [0, 1].take n) := by
  have h := c2_cancellation_behavior (fun k => decide (1 ≤ k)) [0, 1] (fun _ => "r")
  exact ⟨h.1, h.2.1 1 (by decide), h.2.2.1 1 (by decide), h.2.2.2⟩

/-! ## C3: the retry-errors block -/

/-- C3: evaluation of the script at the failing input.  A session whose retry
ledger holds row 3, where the user clicks the retry button and no run button:
the retry block copies `[3]` into the dead local `to_process` (the batch loop
is lexically above it and does not run again; the code's own comment at line
261 leaves reusing the loop to the reader) and clears the ledger, but no job
is dispatched and no cell is written — the previously failed row is never
resubmitted. -/
theorem c3_retry_dispatches_nothing :
    (scriptRun (fun _ => Except.ok "x") "" [] [(3, [])] [3] false false true).executed = []
    ∧ (scriptRun (fun _ => Except.ok "x") "" [] [(3, [])] [3] false false true).errorRowsAfter = []
    ∧ (scriptRun (fun _ => Except.ok "x") "" [] [(3, [])] [3] false false true).retryToProcess =
        some [3]
    ∧ (scriptRun (fun _ => Except.ok "x") "" [] [(3, [])] [3] false false true).batch.cells = [] := by
  decide

/-! ## C6: placeholder validation -/

/-- C6: validation (lines 134-142) extracts all placeholder tokens; when some
placeholder matches no column, the run is blocked before any job is
dispatched — `st.stop()` aborts the script with the batch state untouched —
and the error carries the full list of invalid placeholders (the message of
line 139 joins them all), which contains every unknown column, not just the
first; a placeholder-free template is not blocked: only the non-fatal
no-placeholders warning fires and the run proceeds with the rows selected by
the run buttons. -/
theorem c6_validation_blocks_run (o : Oracle) (tpl : String) (cols : List String)
    (rows : List (Nat × Row)) (er0 : List Nat) (bf bt bc : Bool) :
    ((findPlaceholders tpl).filter (fun c => !(cols.contains c)) ≠ [] →
        (scriptRun o tpl cols rows er0 bf bt bc).blockedInvalid =
            some ((findPlaceholders tpl).filter (fun c => !(cols.contains c)))
        ∧ (scriptRun o tpl cols rows er0 bf bt bc).executed = []
        ∧ (scriptRun o tpl cols rows er0 bf bt bc).batch = emptyBatch)
    ∧ (∀ c, c ∈ findPlaceholders tpl → c ∉ cols →
        c ∈ (findPlaceholders tpl).filter (fun c => !(cols.contains c)))
    ∧ ((findPlaceholders tpl).filter (fun c => !(cols.contains c)) = [] →
        (scriptRun o tpl cols rows er0 bf bt bc).blockedInvalid = none
        ∧ (scriptRun o tpl cols rows er0 bf bt bc).warnedNoPh =
            (findPlaceholders tpl).isEmpty
        ∧ (scriptRun o tpl cols rows er0 bf bt bc).executed =
            (if bf then rows else if bt then rows.take 5 else []).map (fun j => j.1)) := by
  refine ⟨?_, ?_, ?_⟩
  · intro h
    have hE : ((findPlaceholders tpl).filter (fun c => !(cols.contains c))).isEmpty = false :=
      List.isEmpty_eq_false.mpr h
    rw [scriptRun]
    simp only [hE]
    exact ⟨rfl, rfl, rfl⟩
  · intro c hc hnc
    exact List.mem_filter.mpr ⟨hc, by simp [List.elem_iff, List.contains, hnc]⟩
  · intro h
    have hE : ((findPlaceholders tpl).filter (fun c => !(cols.contains c))).isEmpty = true := by
      rw [h]
      rfl
    rw [scriptRun]
    simp only [hE]
    exact ⟨rfl, rfl, rfl⟩

/-- C6, witness: the template `"#X# #Y#"` against the single column `"A"` is
blocked with both unknown placeholders named; the placeholder-free template
`"hello"` is accepted with the warning and a full run over one row. -/
theorem c6_witness :
    (scriptRun (fun _ => Except.ok "t") "#X# #Y#" ["A"] [(0, [])] [] true false false).blockedInvalid
        = some ["X", "Y"]
    ∧ (scriptRun (fun _ => Except.ok "t") "#X# #Y#" ["A"] [(0, [])] [] true false false).executed = []
    ∧ "Y" ∈ (findPlaceholders "#X# #Y#").filter (fun c => !((["A"] : List String).contains c))
    ∧ (scriptRun (fun _ => Except.ok "t") "hello" ["A"] [(0, [])] [] true false false).blockedInvalid
        = none
    ∧ (scriptRun (fun _ => Except.ok "t") "hello" ["A"] [(0, [])] [] true false false).warnedNoPh
        = true := by
  have h1 := c6_validation_blocks_run (fun _ => Except.ok "t") "#X# #Y#" ["A"] [(0, [])] [] true false false
  have h2 := c6_validation_blocks_run (fun _ => Except.ok "t") "hello" ["A"] [(0, [])] [] true false false
  have hb := h1.1 (by decide)
  have ha := h2.2.2 (by decide)
  refine ⟨?_, hb.2.1, ?_, ha.1, ?_⟩
  · rw [hb.1]
    decide
  · exact h1.2.1 "Y" (by decide) (by decide)
  · rw [ha.2.1]
    decide

/-! ## C7: rendering -/

theorem dictGet_rowData (row : Row) (c : String) :
    dictGet (rowData row) c "" = valueOf row c := by
  induction row with
  | nil => rfl
  | cons p rest ih =>
      by_cases h : p.1 = c
      · simp [dictGet, rowData, valueOf, List.find?, h]
      · have hd : (decide (p.1 = c)) = false := by simp [h]
        simp only [dictGet, rowData, valueOf, List.map_cons, List.find?, hd]
        exact ih

/-- C7: rendering is the pure, total function the spec describes — the
program's fold over `data.get(c, "")` (lines 206-209) coincides with
replacing each extracted placeholder token by the row's value stringified,
where a missing column or an `NA` value substitutes the empty string; it is
deterministic (two calls on identical input are the same value, and no
exception can arise since every branch is total). -/
theorem c7_render_pure (tpl : String) (row : Row) :
    renderTpl tpl (findPlaceholders tpl) row = renderSpec tpl row
    ∧ renderTpl tpl (findPlaceholders tpl) row = renderTpl tpl (findPlaceholders tpl) row
    ∧ (∀ c, row.find? (fun p => p.1 = c) = none → dictGet (rowData row) c "" = "")
    ∧ (∀ c p, row.find? (fun q => q.1 = c) = some p → p.2 = Value.na →
        dictGet (rowData row) c "" = "") := by
  refine ⟨?_, rfl, ?_, ?_⟩
  · have hf : (fun s c => pyReplace s (phToken c) (dictGet (rowData row) c "")) =
        (fun s c => pyReplace s (phToken c) (valueOf row c)) := by
      funext s c
      rw [dictGet_rowData]
    rw [renderTpl, renderSpec, hf]
  · intro c h
    rw [dictGet_rowData, valueOf, h]
  · intro c p h hna
    rw [dictGet_rowData, valueOf, h]
    show stringify p.2 = ""
    rw [hna]
    rfl

/-- C7, witness: the spec's own scenario row, with a missing column and an
`NA` value substituting empty strings. -/
theorem c7_witness :
    renderTpl "Hello #Name# from #City#" (findPlaceholders "Hello #Name# from #City#")
        [("Name", Value.str "Ann"), ("City", Value.str "Lyon")] =
      renderSpec "Hello #Name# from #City#" [("Name", Value.str "Ann"), ("City", Value.str "Lyon")]
    ∧ dictGet (rowData [("Name", Value.str "Ann"), ("City", Value.str "Lyon")]) "Age" "" = ""
    ∧ dictGet (rowData [("Name", Value.na)]) "Name" "" = "" := by
  refine ⟨(c7_render_pure _ _).1, ?_, ?_⟩
  · exact (c7_render_pure "Hello #Name# from #City#"
      [("Name", Value.str "Ann"), ("City", Value.str "Lyon")]).2.2.1 "Age" (by decide)
  · exact (c7_render_pure "x" [("Name", Value.na)]).2.2.2 "Name" ("Name", Value.na)
      (by decide) rfl

/-! ## Cache behaviour of `call_chat` -/

theorem callChat_hit (o : Oracle) (st : ChatSt) (p t : String)
    (h : cacheLookup st.cache p = some t) : callChat o st p = (t, st) := by
  rw [callChat, h]

theorem callChat_miss (o : Oracle) (st : ChatSt) (p : String)
    (h : cacheLookup st.cache p = none) :
    callChat o st p =
      (outcomeText (o st.ncalls),
        ⟨(p, outcomeText (o st.ncalls)) :: st.cache, st.ncalls + 1⟩) := by
  rw [callChat, h]

theorem cacheLookup_cons_self (cache : List (String × String)) (p t : String) :
    cacheLookup ((p, t) :: cache) p = some t := by
  simp [cacheLookup, List.find?]

theorem cacheLookup_cons_ne (cache : List (String × String)) (p q t : String)
    (h : p ≠ q) : cacheLookup ((p, t) :: cache) q = cacheLookup cache q := by
  have hd : (decide (p = q)) = false := by simp [h]
  simp [cacheLookup, List.find?, hd]

theorem cacheLookup_preserved (o : Oracle) (st : ChatSt) (p q t : String)
    (h : cacheLookup st.cache p = some t) :
    cacheLookup ((callChat o st q).2).cache p = some t := by
  cases hq : cacheLookup st.cache q with
  | some s => rw [callChat_hit o st q s hq]; exact h
  | none =>
      have hne : q ≠ p := by
        intro e
        rw [e, h] at hq
        cases hq
      rw [callChat_miss o st q hq]
      show cacheLookup ((q, _) :: st.cache) p = some t
      rw [cacheLookup_cons_ne _ _ _ _ hne]
      exact h

theorem cacheLookup_runCalls_preserved (calls : List (Oracle × String))
    (st : ChatSt) (p t : String) (h : cacheLookup st.cache p = some t) :
    cacheLookup (runCalls calls st).cache p = some t := by
  induction calls generalizing st with
  | nil => exact h
  | cons c rest ih => exact ih _ (cacheLookup_preserved c.1 st p c.2 t h)

/-! ## C9: failed calls are cached like successes -/

/-- C9: when the external call for a fresh prompt fails with exception text
`e`, `call_chat` returns the in-band message `"Erreur API : " ++ e` and
stores it in the prompt cache (line 202 runs on the `except` path too); from
then on — across any sequence of further `call_chat` invocations — a call
for the same prompt returns the cached error text unchanged and performs no
external invocation (the chat state, invocation count included, is
untouched). -/
theorem c9_error_text_cached (o o2 : Oracle) (st : ChatSt) (p e : String)
    (calls : List (Oracle × String))
    (hmiss : cacheLookup st.cache p = none)
    (hfail : o st.ncalls = Except.error e) :
    (callChat o st p).1 = errApi ++ " : " ++ e
    ∧ cacheLookup ((callChat o st p).2).cache p = some (errApi ++ " : " ++ e)
    ∧ (callChat o2 (runCalls calls (callChat o st p).2) p).1 = errApi ++ " : " ++ e
    ∧ (callChat o2 (runCalls calls (callChat o st p).2) p).2 =
        runCalls calls (callChat o st p).2 := by
  have h1 := callChat_miss o st p hmiss
  have htext : outcomeText (o st.ncalls) = errApi ++ " : " ++ e := by
    rw [hfail]
    rfl
  have hresp : (callChat o st p).1 = errApi ++ " : " ++ e := by
    rw [h1, htext]
  have hstore : cacheLookup ((callChat o st p).2).cache p = some (errApi ++ " : " ++ e) := by
    rw [h1]
    show cacheLookup ((p, outcomeText (o st.ncalls)) :: st.cache) p = _
    rw [cacheLookup_cons_self, htext]
  have hkept := cacheLookup_runCalls_preserved calls _ p _ hstore
  have h2 := callChat_hit o2 (runCalls calls (callChat o st p).2) p _ hkept
  exact ⟨hresp, hstore, by rw [h2], by rw [h2]⟩

/-- C9, witness: a failing call for prompt `"p"` followed by an unrelated
call; the retry of `"p"` returns the cached `"Erreur API : boom"` without a
new invocation. -/
theorem c9_witness :
    (callChat (fun _ => Except.error "boom") ⟨[], 0⟩ "p").1 = errApi ++ " : " ++ "boom"
    ∧ (callChat (fun _ => Except.ok "fine")
        (runCalls [(fun _ => Except.ok "x", "q")]
          ((callChat (fun _ => Except.error "boom") ⟨[], 0⟩ "p").2)) "p").1 =
        errApi ++ " : " ++ "boom" := by
  have h := c9_error_text_cached (fun _ => Except.error "boom") (fun _ => Except.ok "fine")
    ⟨[], 0⟩ "p" "boom" [(fun _ => Except.ok "x", "q")] rfl rfl
  exact ⟨h.1, h.2.2.1⟩

/-! ## C10: status classification by message text -/

theorem errApi_startsWith (e : String) :
    pyStartsWith (errApi ++ " : " ++ e) errApi = true := by
  have hdata : (errApi ++ " : " ++ e).data = errApi.data ++ (" : ".data ++ e.data) := by
    rw [String.data_append, String.data_append, List.append_assoc]
  rw [pyStartsWith, hdata]
  have hpre : errApi.data <+: errApi.data ++ (" : ".data ++ e.data) :=
    List.prefix_append _ _
  exact List.isPrefixOf_iff_prefix.mpr hpre

theorem statusOf_error_text (e : String) :
    statusOf (errApi ++ " : " ++ e) = RStatus.error := by
  rw [statusOf, if_pos (errApi_startsWith e)]

/-- C10: a result's status is `error` exactly when its text starts with the
literal `"Erreur API"` (line 213); consequently a genuinely successful
external response whose text happens to begin with that marker is classified
as an error and its row index lands in the retry ledger. -/
theorem c10_status_is_prefix_check :
    (∀ resp, statusOf resp = RStatus.error ↔ pyStartsWith resp errApi = true)
    ∧ (∀ (t : String), pyStartsWith t errApi = true →
        ∀ (o : Oracle) (tpl : String) (i : Nat) (row : Row),
          o 0 = Except.ok t →
          (runJobs o tpl (findPlaceholders tpl) [(i, row)] emptyBatch).errorRows = [i]
          ∧ (runJobs o tpl (findPlaceholders tpl) [(i, row)] emptyBatch).log =
              [⟨i, t, RStatus.error, renderTpl tpl (findPlaceholders tpl) row⟩]) := by
  constructor
  · intro resp
    rw [statusOf]
    by_cases h : pyStartsWith resp errApi = true
    · rw [if_pos h]
      exact ⟨fun _ => h, fun _ => rfl⟩
    · rw [if_neg h]
      exact ⟨fun hc => absurd hc (by simp), fun hc => absurd hc h⟩
  · intro t ht o tpl i row ho
    have hmiss : cacheLookup (emptyBatch.chat).cache
        (renderTpl tpl (findPlaceholders tpl) row) = none := rfl
    have hcall := callChat_miss o emptyBatch.chat
      (renderTpl tpl (findPlaceholders tpl) row) hmiss
    have htext : outcomeText (o emptyBatch.chat.ncalls) = t := by
      show outcomeText (o 0) = t
      rw [ho]
      rfl
    have hstat : statusOf t = RStatus.error := by
      rw [statusOf, if_pos ht]
    simp only [runJobs, processRow, hcall, htext, hstat]
    exact ⟨rfl, rfl⟩

/-- C10, witness: the success text `"Erreur API simulée"` is recorded with
status `error` and its row enters the ledger. -/
theorem c10_witness :
    (runJobs (fun _ => Except.ok "Erreur API simulee") "p" (findPlaceholders "p")
        [(7, [])] emptyBatch).errorRows = [7]
    ∧ statusOf "Erreur API simulee" = RStatus.error := by
  have h := c10_status_is_prefix_check.2 "Erreur API simulee" (by decide)
    (fun _ => Except.ok "Erreur API simulee") "p" 7 [] rfl
  exact ⟨h.1, (c10_status_is_prefix_check.1 "Erreur API simulee").mpr (by decide)⟩

/-! ## C5: failure containment and row isolation -/

theorem expectedResults_length (o : Oracle) :
    ∀ (l : List (Nat × String)) (n : Nat), (expectedResults o n l).length = l.length := by
  intro l
  induction l with
  | nil => intro n; rfl
  | cons ip rest ih =>
      intro n
      obtain ⟨i, p⟩ := ip
      simp [expectedResults, ih]

theorem expectedResults_get (o : Oracle) :
    ∀ (l : List (Nat × String)) (n k : Nat),
      (expectedResults o n l)[k]? =
        (l[k]?).map (fun ip =>
          (⟨ip.1, outcomeText (o (n + k)), statusOf (outcomeText (o (n + k))), ip.2⟩ : RowResult)) := by
  intro l
  induction l with
  | nil => intro n k; simp [expectedResults]
  | cons ip rest ih =>
      intro n k
      obtain ⟨i, p⟩ := ip
      cases k with
      | zero => simp [expectedResults]
      | succ k =>
          rw [expectedResults]
          rw [List.getElem?_cons_succ, List.getElem?_cons_succ, ih (n + 1) k]
          have harith : n + 1 + k = n + (k + 1) := by omega
          rw [harith]

theorem expectedResults_mem (o : Oracle) :
    ∀ (l : List (Nat × String)) (n : Nat) (r : RowResult),
      r ∈ expectedResults o n l → ∃ ip, ip ∈ l ∧ r.idx = ip.1 := by
  intro l
  induction l with
  | nil => intro n r h; cases h
  | cons ip rest ih =>
      intro n r h
      obtain ⟨i, p⟩ := ip
      rw [expectedResults] at h
      rcases List.mem_cons.mp h with he | ht
      · exact ⟨(i, p), List.mem_cons_self _ _, by rw [he]⟩
      · obtain ⟨ip', hmem, hidx⟩ := ih (n + 1) r ht
        exact ⟨ip', List.mem_cons_of_mem _ hmem, hidx⟩

theorem expectedResults_pairwise_idx (o : Oracle) :
    ∀ (l : List (Nat × String)) (n : Nat),
      l.Pairwise (fun a b => a.1 ≠ b.1) →
      (expectedResults o n l).Pairwise (fun r s => r.idx ≠ s.idx) := by
  intro l
  induction l with
  | nil => intro n _; exact List.Pairwise.nil
  | cons ip rest ih =>
      intro n hp
      obtain ⟨i, p⟩ := ip
      rcases List.pairwise_cons.mp hp with ⟨hhead, htail⟩
      rw [expectedResults]
      refine List.pairwise_cons.mpr ⟨?_, ih (n + 1) htail⟩
      intro s hs
      obtain ⟨ip', hmem, hidx⟩ := expectedResults_mem o rest (n + 1) s hs
      show i ≠ s.idx
      rw [hidx]
      exact hhead ip' hmem

theorem find?_reverse_key :
    ∀ (l : List (Nat × String)) (m i : Nat) (v : String),
      l.Pairwise (fun a b => a.1 ≠ b.1) → l[m]? = some (i, v) →
      l.reverse.find? (fun q => q.1 = i) = some (i, v) := by
  intro l
  induction l with
  | nil => intro m i v _ h; simp at h
  | cons a rest ih =>
      intro m i v hp h
      rcases List.pairwise_cons.mp hp with ⟨hhead, htail⟩
      rw [List.reverse_cons]
      cases m with
      | zero =>
          have ha : a = (i, v) := by
            rw [List.getElem?_cons_zero] at h
            exact Option.some.inj h
          have hnone : rest.reverse.find? (fun q => q.1 = i) = none := by
            apply List.find?_eq_none.mpr
            intro x hx
            have hxmem : x ∈ rest := List.mem_reverse.mp hx
            have hax := hhead x hxmem
            rw [ha] at hax
            simp only [decide_eq_true_eq]
            intro he
            exact hax he.symm
          rw [ha]
          simp [List.find?_append, hnone, List.find?]
      | succ m =>
          rw [List.getElem?_cons_succ] at h
          have hfound := ih m i v htail h
          simp [List.find?_append, hfound]

/-- The batch loop characterized on a job list whose rendered prompts are
pairwise distinct and absent from the starting cache: each job misses the
cache, consumes the next external invocation in order, appends its log entry
and cell write, and contributes its index to the ledger exactly when its
status is `error`. -/
theorem runJobs_fresh (o : Oracle) (tpl : String) :
    ∀ (jobs : List (Nat × Row)) (st : BatchSt),
      (jobPrompts tpl jobs).Pairwise (fun a b => a.2 ≠ b.2) →
      (∀ q, q ∈ (jobPrompts tpl jobs).map (fun j => j.2) →
        cacheLookup st.chat.cache q = none) →
      (runJobs o tpl (findPlaceholders tpl) jobs st).log =
          st.log ++ expectedResults o st.chat.ncalls (jobPrompts tpl jobs)
      ∧ (runJobs o tpl (findPlaceholders tpl) jobs st).cells =
          ((expectedResults o st.chat.ncalls (jobPrompts tpl jobs)).map
              (fun r => (r.idx, r.resp))).reverse ++ st.cells
      ∧ (runJobs o tpl (findPlaceholders tpl) jobs st).errorRows =
          st.errorRows ++ (expectedResults o st.chat.ncalls (jobPrompts tpl jobs)).filterMap
              (fun r => if r.status = RStatus.error then some r.idx else none) := by
  intro jobs
  induction jobs with
  | nil =>
      intro st _ _
      refine ⟨?_, ?_, ?_⟩ <;> simp [runJobs, jobPrompts, expectedResults]
  | cons j rest ih =>
      intro st hpair hfresh
      have hjp : jobPrompts tpl (j :: rest) =
          (j.1, renderTpl tpl (findPlaceholders tpl) j.2) :: jobPrompts tpl rest := rfl
      rw [hjp] at hpair
      rcases List.pairwise_cons.mp hpair with ⟨hhead, htail⟩
      have hmiss : cacheLookup st.chat.cache (renderTpl tpl (findPlaceholders tpl) j.2) = none := by
        apply hfresh
        rw [hjp, List.map_cons]
        exact List.mem_cons_self _ _
      have hcall := callChat_miss o st.chat (renderTpl tpl (findPlaceholders tpl) j.2) hmiss
      have hpr : processRow o tpl (findPlaceholders tpl) st.chat j.1 j.2 =
          (⟨j.1, outcomeText (o st.chat.ncalls), statusOf (outcomeText (o st.chat.ncalls)),
              renderTpl tpl (findPlaceholders tpl) j.2⟩,
            ⟨(renderTpl tpl (findPlaceholders tpl) j.2, outcomeText (o st.chat.ncalls)) ::
                st.chat.cache, st.chat.ncalls + 1⟩) := by
        simp only [processRow, hcall]
      have hstep : runJobs o tpl (findPlaceholders tpl) (j :: rest) st =
          runJobs o tpl (findPlaceholders tpl) rest
            { chat := ⟨(renderTpl tpl (findPlaceholders tpl) j.2,
                  outcomeText (o st.chat.ncalls)) :: st.chat.cache, st.chat.ncalls + 1⟩
              cells := (j.1, outcomeText (o st.chat.ncalls)) :: st.cells
              log := st.log ++ [⟨j.1, outcomeText (o st.chat.ncalls),
                  statusOf (outcomeText (o st.chat.ncalls)),
                  renderTpl tpl (findPlaceholders tpl) j.2⟩]
              errorRows :=
                if statusOf (outcomeText (o st.chat.ncalls)) = RStatus.error then
                  st.errorRows ++ [j.1]
                else st.errorRows } := by
        conv =>
          lhs
          rw [runJobs]
        rw [hpr]
      have hfresh' : ∀ q, q ∈ (jobPrompts tpl rest).map (fun j => j.2) →
          cacheLookup ((renderTpl tpl (findPlaceholders tpl) j.2,
            outcomeText (o st.chat.ncalls)) :: st.chat.cache) q = none := by
        intro q hq
        obtain ⟨b, hb, hbq⟩ := List.mem_map.mp hq
        have hne : renderTpl tpl (findPlaceholders tpl) j.2 ≠ q := by
          rw [← hbq]
          exact hhead b hb
        rw [cacheLookup_cons_ne _ _ _ _ hne]
        exact hfresh q (by rw [hjp, List.map_cons]; exact List.mem_cons_of_mem _ hq)
      have hrec := ih
        { chat := ⟨(renderTpl tpl (findPlaceholders tpl) j.2,
              outcomeText (o st.chat.ncalls)) :: st.chat.cache, st.chat.ncalls + 1⟩
          cells := (j.1, outcomeText (o st.chat.ncalls)) :: st.cells
          log := st.log ++ [⟨j.1, outcomeText (o st.chat.ncalls),
              statusOf (outcomeText (o st.chat.ncalls)),
              renderTpl tpl (findPlaceholders tpl) j.2⟩]
          errorRows :=
            if statusOf (outcomeText (o st.chat.ncalls)) = RStatus.error then
              st.errorRows ++ [j.1]
            else st.errorRows } htail hfresh'
      rw [hstep]
      refine ⟨?_, ?_, ?_⟩
      · rw [hrec.1, hjp]
        rw [expectedResults]
        simp [List.append_assoc]
      · rw [hrec.2.1, hjp]
        rw [expectedResults]
        simp [List.reverse_cons, List.append_assoc]
      · rw [hrec.2.2, hjp]
        rw [expectedResults]
        rw [List.filterMap_cons]
        by_cases hs : statusOf (outcomeText (o st.chat.ncalls)) = RStatus.error
        · simp [hs, List.append_assoc]
        · simp [hs]

/-- C5, counterexample.  Rows 0 and 1 render the same prompt (a
placeholder-free template).  Under `o0`, row 0's call fails and the error is
cached, so row 1 receives the cached error text without any call of its own;
under `o1`, which differs from `o0` only in the outcome of that first
invocation, row 1 receives `"good"`.  Row 1's result therefore depends on row
0's failure (`ncalls = 1`: row 1 performed no external call at all), against
the claim that every other row's processing and result are unaffected. -/
theorem c5_counterexample :
    let o0 : Oracle := fun n => if n = 0 then Except.error "boom" else Except.ok "fine"
    let o1 : Oracle := fun n => if n = 0 then Except.ok "good" else Except.ok "fine"
    let jobs : List (Nat × Row) := [(0, []), (1, [])]
    (∀ n, n ≠ 0 → o0 n = o1 n)
    ∧ cellValue (runJobs o0 "p" (findPlaceholders "p") jobs emptyBatch) 1 =
        some ("Erreur API : boom")
    ∧ cellValue (runJobs o1 "p" (findPlaceholders "p") jobs emptyBatch) 1 = some "good"
    ∧ cellValue (runJobs o0 "p" (findPlaceholders "p") jobs emptyBatch) 1 ≠
        cellValue (runJobs o1 "p" (findPlaceholders "p") jobs emptyBatch) 1
    ∧ (runJobs o0 "p" (findPlaceholders "p") jobs emptyBatch).chat.ncalls = 1 := by
  refine ⟨?_, ?_, ?_, ?_, ?_⟩
  · intro n hn
    simp [hn]
  · decide
  · decide
  · decide
  · decide

/-- C5 (amended): a failing external call is caught and downgraded to data —
the row's log entry carries the in-band message `"Erreur API : " ++ e` with
status `error`, the row's index enters the retry ledger, and the message is
written to the row's output cell; the batch is never aborted (the log holds
one entry per job whatever the outcomes, and every function involved is
total, so no exception propagates); and when the jobs' rendered prompts are
pairwise distinct, every other row's entry is unchanged when only the failing
invocation's outcome changes.  (Rows sharing a rendered prompt are *not*
isolated: they share one cache entry — see the counterexample.) -/
theorem c5_failed_rows_contained (o o' : Oracle) (tpl : String)
    (jobs : List (Nat × Row)) (m : Nat) (e : String)
    (hkeys : (jobPrompts tpl jobs).Pairwise (fun a b => a.1 ≠ b.1 ∧ a.2 ≠ b.2))
    (hagree : ∀ n, n ≠ m → o n = o' n) :
    (runJobs o tpl (findPlaceholders tpl) jobs emptyBatch).log.length = jobs.length
    ∧ (∀ i p, (jobPrompts tpl jobs)[m]? = some (i, p) → o m = Except.error e →
        (runJobs o tpl (findPlaceholders tpl) jobs emptyBatch).log[m]? =
            some ⟨i, errApi ++ " : " ++ e, RStatus.error, p⟩
        ∧ i ∈ (runJobs o tpl (findPlaceholders tpl) jobs emptyBatch).errorRows
        ∧ cellValue (runJobs o tpl (findPlaceholders tpl) jobs emptyBatch) i =
            some (errApi ++ " : " ++ e))
    ∧ (∀ k, k ≠ m →
        (runJobs o tpl (findPlaceholders tpl) jobs emptyBatch).log[k]? =
        (runJobs o' tpl (findPlaceholders tpl) jobs emptyBatch).log[k]?) := by
  have hprompts : (jobPrompts tpl jobs).Pairwise (fun a b => a.2 ≠ b.2) :=
    hkeys.imp (fun h => h.2)
  have hidx : (jobPrompts tpl jobs).Pairwise (fun a b => a.1 ≠ b.1) :=
    hkeys.imp (fun h => h.1)
  have hfresh : ∀ q, q ∈ (jobPrompts tpl jobs).map (fun j => j.2) →
      cacheLookup emptyBatch.chat.cache q = none := fun q _ => rfl
  have H := runJobs_fresh o tpl jobs emptyBatch hprompts hfresh
  have H' := runJobs_fresh o' tpl jobs emptyBatch hprompts hfresh
  have hlog : (runJobs o tpl (findPlaceholders tpl) jobs emptyBatch).log =
      expectedResults o 0 (jobPrompts tpl jobs) := by
    simpa [emptyBatch] using H.1
  have hlog' : (runJobs o' tpl (findPlaceholders tpl) jobs emptyBatch).log =
      expectedResults o' 0 (jobPrompts tpl jobs) := by
    simpa [emptyBatch] using H'.1
  refine ⟨?_, ?_, ?_⟩
  · rw [hlog, expectedResults_length]
    simp [jobPrompts]
  · intro i p hm ho
    have hgetE : (expectedResults o 0 (jobPrompts tpl jobs))[m]? =
        some ⟨i, errApi ++ " : " ++ e, RStatus.error, p⟩ := by
      rw [expectedResults_get o (jobPrompts tpl jobs) 0 m, hm]
      simp [Nat.zero_add, ho, outcomeText, statusOf_error_text]
    have hmem_r := List.getElem?_mem hgetE
    refine ⟨?_, ?_, ?_⟩
    · rw [hlog]
      exact hgetE
    · have h2 := H.2.2
      rw [h2]
      simp only [emptyBatch, List.nil_append]
      exact List.mem_filterMap.mpr
        ⟨⟨i, errApi ++ " : " ++ e, RStatus.error, p⟩, hmem_r, by simp⟩
    · have hcells : (runJobs o tpl (findPlaceholders tpl) jobs emptyBatch).cells =
          ((expectedResults o 0 (jobPrompts tpl jobs)).map
            (fun r => (r.idx, r.resp))).reverse := by
        simpa [emptyBatch] using H.2.1
      have hpairsE : ((expectedResults o 0 (jobPrompts tpl jobs)).map
          (fun r => (r.idx, r.resp))).Pairwise (fun a b => a.1 ≠ b.1) := by
        rw [List.pairwise_map]
        exact expectedResults_pairwise_idx o _ 0 hidx
      have hgetPair : ((expectedResults o 0 (jobPrompts tpl jobs)).map
          (fun r => (r.idx, r.resp)))[m]? = some (i, errApi ++ " : " ++ e) := by
        rw [List.getElem?_map, hgetE]
        rfl
      have hfind := find?_reverse_key _ m i _ hpairsE hgetPair
      rw [cellValue, hcells, hfind]
      rfl
  · intro k hk
    rw [hlog, hlog', expectedResults_get, expectedResults_get]
    have hok : o (0 + k) = o' (0 + k) := by
      rw [Nat.zero_add]
      exact hagree k hk
    rw [hok]

/-- C5, witness: two rows with distinct prompts; the first row's call fails,
its error is logged, ledgered and written in-band, and the second row's log
entry is identical under an oracle differing only at the failing
invocation. -/
theorem c5_witness :
    (runJobs (fun n => if n = 0 then Except.error "boom" else Except.ok "ok1") "#A#"
        (findPlaceholders "#A#") [(0, [("A", Value.str "x")]), (1, [("A", Value.str "y")])]
        emptyBatch).log.length =
      ([(0, ([("A", Value.str "x")] : Row)), (1, [("A", Value.str "y")])] : List (Nat × Row)).length
    ∧ 0 ∈ (runJobs (fun n => if n = 0 then Except.error "boom" else Except.ok "ok1") "#A#"
        (findPlaceholders "#A#") [(0, [("A", Value.str "x")]), (1, [("A", Value.str "y")])]
        emptyBatch).errorRows
    ∧ cellValue (runJobs (fun n => if n = 0 then Except.error "boom" else Except.ok "ok1") "#A#"
        (findPlaceholders "#A#") [(0, [("A", Value.str "x")]), (1, [("A", Value.str "y")])]
        emptyBatch) 0 = some (errApi ++ " : " ++ "boom")
    ∧ (runJobs (fun n => if n = 0 then Except.error "boom" else Except.ok "ok1") "#A#"
        (findPlaceholders "#A#") [(0, [("A", Value.str "x")]), (1, [("A", Value.str "y")])]
        emptyBatch).log[1]? =
      (runJobs (fun n => if n = 0 then Except.ok "good" else Except.ok "ok1") "#A#"
        (findPlaceholders "#A#") [(0, [("A", Value.str "x")]), (1, [("A", Value.str "y")])]
        emptyBatch).log[1]? := by
  have h := c5_failed_rows_contained
    (fun n => if n = 0 then Except.error "boom" else Except.ok "ok1")
    (fun n => if n = 0 then Except.ok "good" else Except.ok "ok1") "#A#"
    [(0, [("A", Value.str "x")]), (1, [("A", Value.str "y")])] 0 "boom"
    (by decide) (fun n hn => by simp [hn])
  have hinner := h.2.1 0 "x" (by decide) rfl
  exact ⟨h.1, hinner.2.1, hinner.2.2, h.2.2 1 (by decide)⟩

end AppIaExcel
